import Mathlib

/-!
Verification of the calendar-analysis core (ICS parser, event model,
classifier, aggregators) of the FY26 calibration self-assessment scripts.

The Python sources are shallowly embedded: strings are Lean `String`s
manipulated through structural-recursive helpers on `List Char` (so that
everything kernel-evaluates), floats are modelled as exact rationals `ℚ`,
`try/except` blocks become `Option`, and Python dictionaries with
default-factory semantics become total functions updated pointwise.
Python string operations are modelled for the ASCII fragment that the
scripts actually traffic in (keyword lists, field names, e-mail
addresses are all ASCII).
-/

/-! ## Python-style string primitives (structural, kernel-computable) -/

/-- Characters Python `str.strip()` removes (ASCII whitespace). -/
def isPySpace (c : Char) : Bool :=
  c == ' ' || c == '\t' || c == '\n' || c == '\r' || c == '\x0b' || c == '\x0c'

/-- `l₁` is a prefix of `l₂` (list-of-char version, Boolean). -/
def isPrefixL : List Char → List Char → Bool
  | [], _ => true
  | _ :: _, [] => false
  | a :: as, b :: bs => a == b && isPrefixL as bs

/-- `pat` occurs as a contiguous infix of `s` (Python `pat in s`). -/
def isInfixL (pat : List Char) : List Char → Bool
  | [] => isPrefixL pat []
  | c :: rest => isPrefixL pat (c :: rest) || isInfixL pat rest

def strContains (s pat : String) : Bool := isInfixL pat.data s.data

/-- Python `s.lower()` restricted to ASCII letters. -/
def charLowerAscii (c : Char) : Char :=
  if 'A' ≤ c && c ≤ 'Z' then Char.ofNat (c.toNat + 32) else c

def pyLower (s : String) : String := ⟨s.data.map charLowerAscii⟩

/-- Python `line.rstrip('\n\r')`. -/
def rstripNL (s : String) : String :=
  ⟨(s.data.reverse.dropWhile (fun c => c == '\n' || c == '\r')).reverse⟩

/-- Python `s.strip()` (with the ASCII whitespace set). -/
def pyStrip (s : String) : String :=
  ⟨((s.data.dropWhile isPySpace).reverse.dropWhile isPySpace).reverse⟩

/-- Python `s.lstrip()`: only leading whitespace removed. -/
def pyLStrip (s : String) : String := ⟨s.data.dropWhile isPySpace⟩

def startsWithSpaceTab (s : String) : Bool :=
  match s.data with
  | c :: _ => c == ' ' || c == '\t'
  | [] => false

def endsWithEq (s : String) : Bool :=
  match s.data.getLast? with
  | some c => c == '='
  | none => false

def containsColon (s : String) : Bool := s.data.any (fun c => c == ':')

/-- First component of Python `line.split(':', 1)`. -/
def splitColonFst (s : String) : String := ⟨s.data.takeWhile (fun c => c != ':')⟩

/-- Second component of Python `line.split(':', 1)` (empty when no colon). -/
def splitColonSnd (s : String) : String := ⟨(s.data.dropWhile (fun c => c != ':')).drop 1⟩

/-- Python `field.split(';')[0]`. -/
def splitSemiFst (s : String) : String := ⟨s.data.takeWhile (fun c => c != ';')⟩

/-- Python `s.split(sep)` for a one-character separator. -/
def splitOnChar (sep : Char) : List Char → List (List Char)
  | [] => [[]]
  | c :: rest =>
    match splitOnChar sep rest with
    | h :: t => if c == sep then [] :: h :: t else (c :: h) :: t
    | [] => [[]]

/-- Python `value.encode('ascii', 'ignore').decode('ascii')`:
drop every non-ASCII character. -/
def asciiOnly (s : String) : String := ⟨s.data.filter (fun c => c.toNat ≤ 127)⟩

/-- `re.search(pat + '(capture+)')`-style search: find the leftmost
position where `pat` occurs followed by at least one character not
satisfying `stop`, and return the maximal captured run. -/
def findCapture (pat : List Char) (stop : Char → Bool) : List Char → Option (List Char)
  | [] => none
  | c :: rest =>
    if isPrefixL pat (c :: rest) then
      let tok := ((c :: rest).drop pat.length).takeWhile (fun ch => !(stop ch))
      if tok.isEmpty then findCapture pat stop rest else some tok
    else findCapture pat stop rest

/-- `re.search(r'mailto:([^\s]+)', value)` capture group. -/
def findMailto (value : String) : Option String :=
  (findCapture "mailto:".data isPySpace value.data).map (fun l => ⟨l⟩)

/-- `re.search(r'PARTSTAT=([^;:]+)', field)` capture group. -/
def findPartstat (field : String) : Option String :=
  (findCapture "PARTSTAT=".data (fun c => c == ';' || c == ':') field.data).map (fun l => ⟨l⟩)

/-- The suffix of `s` after the last occurrence of `pat`
(`s.split(pat)[-1]` for a pattern with no self-overlap, as 'TZID=' is). -/
def afterLastSplit (pat : List Char) : List Char → Option (List Char)
  | [] => none
  | c :: rest =>
    match afterLastSplit pat rest with
    | some r => some r
    | none =>
      if isPrefixL pat (c :: rest) then some ((c :: rest).drop pat.length) else none

def strJoin : List String → String
  | [] => ""
  | s :: rest => s ++ strJoin rest

/-! ## Naive local timestamps (`datetime.strptime(…, '%Y%m%dT%H%M%S')`) -/

def isLeapYear (y : Nat) : Bool := y % 4 == 0 && (y % 100 != 0 || y % 400 == 0)

def daysInMonth (y m : Nat) : Nat :=
  if m == 2 then (if isLeapYear y then 29 else 28)
  else if m == 4 || m == 6 || m == 9 || m == 11 then 30
  else 31

def daysBeforeMonth (y m : Nat) : Nat :=
  (List.range (m - 1)).foldl (fun acc i => acc + daysInMonth y (i + 1)) 0

/-- Day count of a proleptic-Gregorian civil date (0001-01-01 ↦ 0). -/
def rataDie (y m d : Nat) : Nat :=
  365 * (y - 1) + (y - 1) / 4 - (y - 1) / 100 + (y - 1) / 400 + daysBeforeMonth y m + (d - 1)

def digitsToNat (cs : List Char) : Nat :=
  cs.foldl (fun acc c => acc * 10 + (c.toNat - 48)) 0

/-- Parse a 15-character `YYYYMMDDTHHMMSS` token as seconds on a naive
timeline, with exactly `datetime`'s validity domain (year ≥ 1, real
calendar day, hour ≤ 23, minute ≤ 59, second ≤ 59); `none` models the
`ValueError` that `strptime`/`datetime` raise otherwise. -/
def strptimeYmdHMS (tok : List Char) : Option Nat :=
  let y := digitsToNat (tok.take 4)
  let mo := digitsToNat ((tok.drop 4).take 2)
  let d := digitsToNat ((tok.drop 6).take 2)
  let h := digitsToNat ((tok.drop 9).take 2)
  let mi := digitsToNat ((tok.drop 11).take 2)
  let s := digitsToNat ((tok.drop 13).take 2)
  if 1 ≤ y && 1 ≤ mo && mo ≤ 12 && 1 ≤ d && d ≤ daysInMonth y mo
      && h ≤ 23 && mi ≤ 59 && s ≤ 59 then
    some (rataDie y mo d * 86400 + h * 3600 + mi * 60 + s)
  else none

/-- `re.search(r'(\d{8}T\d{6})', s)`: does the fixed-shape token start
here? -/
def tokenAt (s : List Char) : Bool :=
  ((s.take 8).length == 8 && (s.take 8).all Char.isDigit) &&
  (match s.drop 8 with
   | 'T' :: rest => (rest.take 6).length == 6 && (rest.take 6).all Char.isDigit
   | _ => false)

/-- Leftmost `\d{8}T\d{6}` token of `s`, if any. -/
def searchToken : List Char → Option (List Char)
  | [] => none
  | c :: rest => if tokenAt (c :: rest) then some ((c :: rest).take 15) else searchToken rest

/-- `s.split('TZID=')[-1] if 'TZID=' in s else s`. -/
def tzTail (s : String) : String :=
  if strContains s "TZID=" then
    match afterLastSplit "TZID=".data s.data with
    | some r => ⟨r⟩
    | none => s
  else s

/-- The timestamp (in seconds) named by the leftmost date-time token of
`s`, or `none` when the token is absent or `strptime` would raise. -/
def tokenTimestamp (s : String) : Option Nat :=
  (searchToken s.data).bind strptimeYmdHMS

/-- `CalendarEvent.get_duration_hours` on the stored `dtstart`/`dtend`
strings: strip everything up to a `TZID=` qualifier, locate the
date-time token on each side, and return `(end - start)` in hours;
any failure yields `0.0` (the method never raises). -/
def durationHoursOf (dtstart dtend : String) : ℚ :=
  match tokenTimestamp (tzTail dtstart), tokenTimestamp (tzTail dtend) with
  | some a, some b => ((b : ℚ) - (a : ℚ)) / 3600
  | _, _ => 0

/-! ## `scripts/analyze_calendar.py` -/

namespace analyze_calendar

/-- One entry of `event.attendees` as built by
`analyze_calendar.process_field` (the `'status'` key is only present
when a `PARTSTAT=` parameter matched). -/
structure Attendee where
  email : String
  status : Option String
deriving DecidableEq, Repr

/-- The `CalendarEvent` class of `analyze_calendar.py`. -/
structure CalendarEvent where
  summary : String := ""
  dtstart : String := ""
  dtend : String := ""
  description : String := ""
  location : String := ""
  organizer : String := ""
  attendees : List Attendee := []
  categories : List String := []
  status : String := ""
  busy_status : String := ""
  transp : String := ""
  created : String := ""
  uid : String := ""
  is_recurring : Bool := false
  recurrence_id : String := ""
deriving DecidableEq, Repr

/-- `CalendarEvent()`: the freshly constructed event. -/
def emptyEvent : CalendarEvent := {}

/-- `CalendarEvent.get_duration_hours`. -/
def get_duration_hours (e : CalendarEvent) : ℚ := durationHoursOf e.dtstart e.dtend

/-- `process_field(event, field, value)`. -/
def process_field (event : CalendarEvent) (field value : String) : CalendarEvent :=
  let field_name := splitSemiFst field
  if field_name == "SUMMARY" then { event with summary := asciiOnly value }
  else if field_name == "DTSTART" then { event with dtstart := field ++ ":" ++ value }
  else if field_name == "DTEND" then { event with dtend := field ++ ":" ++ value }
  else if field_name == "DESCRIPTION" then { event with description := ⟨value.data.take 500⟩ }
  else if field_name == "LOCATION" then { event with location := value }
  else if field_name == "ORGANIZER" then
    match findMailto value with
    | some em => { event with organizer := em }
    | none => event
  else if field_name == "ATTENDEE" then
    let partstat := findPartstat field
    let event :=
      if strContains (pyLower value) "daniel.moreira@autodesk.com" then
        match partstat with
        | some p => { event with status := p }
        | none => event
      else event
    match findMailto value with
    | some em => { event with attendees := event.attendees ++ [⟨em, partstat⟩] }
    | none => event
  else if field_name == "CATEGORIES" then
    { event with categories := (splitOnChar ',' value.data).map (fun l => pyStrip ⟨l⟩) }
  else if field_name == "X-MICROSOFT-CDO-BUSYSTATUS" then { event with busy_status := value }
  else if field_name == "TRANSP" then { event with transp := value }
  else if field_name == "CREATED" then { event with created := value }
  else if field_name == "UID" then { event with uid := value }
  else if field_name == "RRULE" then { event with is_recurring := true }
  else if field_name == "RECURRENCE-ID" then { event with recurrence_id := value }
  else event

/-- The parser's loop state: the emitted events, `current_event`,
`current_field` and `continuation_value`. `current_field` is an
`Option String`; Python reads it only through truthiness, under which
`None` and `""` coincide (see `truthyOpt`). -/
structure ParseState where
  events : List CalendarEvent
  current_event : Option CalendarEvent
  current_field : Option String
  continuation_value : String
deriving Repr

/-- Python truthiness of the `current_field` variable (`None` and the
empty string are both falsy). -/
def truthyOpt : Option String → Bool
  | none => false
  | some s => !(s == "")

/-- The "process previous field if we have continuation" block of the
loop body. The source calls `process_field` on `current_event` there
unconditionally; a pending field implies an open event on every state
the loop can actually reach, so the `none` case only resets the
pending field. -/
def flushPending (st : ParseState) : ParseState :=
  if truthyOpt st.current_field && !(st.continuation_value == "") then
    match st.current_event with
    | some ev =>
      { st with
        current_event := some (process_field ev (st.current_field.getD "") st.continuation_value)
        current_field := none
        continuation_value := "" }
    | none => { st with current_field := none, continuation_value := "" }
  else st

/-- The `BEGIN:VEVENT` / `END:VEVENT` / field-line dispatch of the loop
body (applied after the pending-field flush, to the already
`rstrip`-ped line). -/
def dispatchLine (st₁ : ParseState) (line : String) : ParseState :=
  if line == "BEGIN:VEVENT" then { st₁ with current_event := some emptyEvent }
  else if line == "END:VEVENT" && st₁.current_event.isSome then
    { st₁ with
      events := st₁.events ++ [st₁.current_event.getD emptyEvent]
      current_event := none }
  else
    match st₁.current_event with
    | some _ =>
      if containsColon line then
        if !(endsWithEq line) then
          { st₁ with
            current_event :=
              some (process_field (st₁.current_event.getD emptyEvent)
                (splitColonFst line) (splitColonSnd line))
            current_field := none }
        else
          { st₁ with
            current_field := some (splitColonFst line)
            continuation_value := splitColonSnd line }
      else st₁
    | none => st₁

/-- The body of `parse_ics_file`'s `for line in f` loop. -/
def parseLine (st : ParseState) (rawLine : String) : ParseState :=
  let line := rstripNL rawLine
  if startsWithSpaceTab line && truthyOpt st.current_field then
    { st with continuation_value := st.continuation_value ++ pyStrip line }
  else dispatchLine (flushPending st) line

def initState : ParseState := ⟨[], none, none, ""⟩

/-- `parse_ics_file`, over the file's physical lines. -/
def parse_ics_file (lines : List String) : List CalendarEvent :=
  (lines.foldl parseLine initState).events

/-- `categorize_event(event)`. -/
def categorize_event (event : CalendarEvent) : String :=
  let summary_lower := pyLower event.summary
  let desc_lower := pyLower event.description
  if event.status == "DECLINED" || event.status == "TENTATIVE" then
    "declined_tentative_" ++ pyLower event.status
  else if event.busy_status == "OOF" then "out_of_office"
  else if ["out of office", "ooo", "pto", "vacation", "holiday",
      "personal", "dentist", "doctor", "appointment"].any
      (fun kw => strContains summary_lower kw) then
    "personal_time_off"
  else if ["lunch", "breakfast", "dinner", "coffee break", "break",
      "gym", "workout", "exercise"].any (fun kw => strContains summary_lower kw) then
    "breaks_personal_care"
  else if event.transp == "TRANSPARENT" || event.busy_status == "FREE" then
    "free_time_transparent"
  else if ["1:1", "one on one", "1-1", "sync", "standup", "stand-up",
      "team meeting", "all hands", "town hall", "skip level"].any
      (fun kw => strContains summary_lower kw) then
    "internal_meetings_1on1_sync"
  else if ["customer", "client", "external", "demo", "presentation",
      "sales", "prospect"].any
      (fun kw => strContains summary_lower kw || strContains desc_lower kw) then
    "customer_external"
  else if ["training", "workshop", "learning", "course", "webinar",
      "certification", "onboarding"].any (fun kw => strContains summary_lower kw) then
    "training_learning"
  else if ["planning", "roadmap", "strategy", "review", "retrospective",
      "sprint", "scrum", "project", "initiative"].any
      (fun kw => strContains summary_lower kw) then
    "planning_strategy"
  else if ["interview", "candidate", "hiring", "recruiting", "screening"].any
      (fun kw => strContains summary_lower kw) then
    "recruiting_hiring"
  else if ["focus", "focus time", "blocked", "do not book", "dnb",
      "heads down", "deep work", "no meetings"].any
      (fun kw => strContains summary_lower kw) then
    "focus_time_blocked"
  else if event.busy_status == "BUSY" || event.transp == "OPAQUE" then
    "general_work_meetings"
  else "uncategorized"

/-- One iteration of `analyze_calendar(events)`'s loop:
`categories[category].append(event)` and
`stats['total_hours_by_category'][category] += duration`. -/
def analyzeStep (acc : (String → List CalendarEvent) × (String → ℚ))
    (event : CalendarEvent) : (String → List CalendarEvent) × (String → ℚ) :=
  let category := categorize_event event
  let duration := get_duration_hours event
  (fun c => if c = category then acc.1 c ++ [event] else acc.1 c,
   fun c => if c = category then acc.2 c + duration else acc.2 c)

/-- The accumulation loop of `analyze_calendar(events)`: the
`categories` defaultdict of per-label event lists and the
`total_hours_by_category` defaultdict (both as total functions with the
default-factory zero values). -/
def analyze_calendar (events : List CalendarEvent) :
    (String → List CalendarEvent) × (String → ℚ) :=
  events.foldl analyzeStep (fun _ => [], fun _ => 0)

end analyze_calendar

/-! ## `scripts/rerun_analysis_improved.py` -/

namespace rerun_analysis_improved

/-- One entry of `event.attendees` as built by
`rerun_analysis_improved.process_field` (email plus display name with
local-part fallback). -/
structure Attendee where
  email : String
  name : String
deriving DecidableEq, Repr

/-- The `CalendarEvent` class of `rerun_analysis_improved.py`. -/
structure CalendarEvent where
  summary : String := ""
  dtstart : String := ""
  dtend : String := ""
  description : String := ""
  location : String := ""
  organizer : String := ""
  organizer_name : String := ""
  attendees : List Attendee := []
  busy_status : String := ""
  transp : String := ""
  status : String := ""
deriving DecidableEq, Repr

/-- `CalendarEvent.get_duration_hours` (same text as in
`analyze_calendar.py`). -/
def get_duration_hours (e : CalendarEvent) : ℚ := durationHoursOf e.dtstart e.dtend

/-- `is_actual_meeting(event)`: the event has at least one attendee. -/
def is_actual_meeting (event : CalendarEvent) : Bool :=
  event.attendees.length > 0

/-- `categorize_event_final(event)`: the final ordered rule list. -/
def categorize_event_final (event : CalendarEvent) : String :=
  let summary_lower := pyLower event.summary
  let desc_lower := pyLower event.description
  if !(is_actual_meeting event) then "non_meetings_excluded"
  else if event.status == "DECLINED" || event.status == "TENTATIVE" then
    "declined_tentative_" ++ pyLower event.status
  else if event.busy_status == "OOF" then "out_of_office"
  else if ["out of office", "ooo", "pto", "vacation", "holiday"].any
      (fun kw => strContains summary_lower kw) then
    "personal_time_off"
  else if strContains summary_lower "focus friday"
      || strContains summary_lower "focus fridays" then
    "focus_fridays_excluded"
  else if ["laptop", "new laptop", "it support", "setup", "infoworks icm cloud"].any
      (fun kw => strContains summary_lower kw) then
    "work_admin_it"
  else if (["dentist", "doctor", "personal bookings"].any
        (fun kw => strContains summary_lower kw))
      && !(["customer", "client"].any (fun kw => strContains summary_lower kw)) then
    "personal_appointments_excluded"
  else if ["lunch", "breakfast"].any (fun kw => strContains summary_lower kw) then
    if ["customer", "client", "dinner", "reception", "networking",
        "team", "cs dinner", "ebcs", "awi"].any
        (fun kw => strContains summary_lower kw || strContains desc_lower kw) then
      "business_meals_networking"
    else "breaks_personal_excluded"
  else if ["gym", "workout", "exercise"].any (fun kw => strContains summary_lower kw) then
    "breaks_personal_excluded"
  else if event.transp == "TRANSPARENT" || event.busy_status == "FREE" then
    "free_time_transparent_excluded"
  else if ["customer", "client", "external", "demo", "presentation",
      "sales", "prospect", "dinner", "reception"].any
      (fun kw => strContains summary_lower kw || strContains desc_lower kw) then
    "customer_external"
  else if ["1:1", "one on one", "1-1", "sync", "catch up", "check in"].any
      (fun kw => strContains summary_lower kw) then
    "internal_meetings_1on1_sync"
  else if ["training", "workshop", "learning", "course", "webinar",
      "certification", "onboarding"].any (fun kw => strContains summary_lower kw) then
    "training_learning"
  else if ["planning", "roadmap", "strategy", "review", "retrospective",
      "sprint", "scrum", "project", "initiative", "backlog", "refinement"].any
      (fun kw => strContains summary_lower kw) then
    "planning_strategy"
  else if ["interview", "candidate", "hiring", "recruiting", "screening"].any
      (fun kw => strContains summary_lower kw) then
    "recruiting_hiring"
  else if (["focus time", "blocked", "do not book", "dnb",
        "heads down", "deep work", "no meetings"].any
        (fun kw => strContains summary_lower kw))
      && !(strContains summary_lower "friday") then
    "focus_time_blocked"
  else if event.busy_status == "BUSY" || event.transp == "OPAQUE" then
    "general_work_meetings"
  else "uncategorized"

/-- The `excluded_categories` list of `is_work_relevant_final`. -/
def excluded_categories : List String :=
  ["declined_tentative_declined",
   "declined_tentative_tentative",
   "out_of_office",
   "personal_time_off",
   "breaks_personal_excluded",
   "free_time_transparent_excluded",
   "focus_fridays_excluded",
   "personal_appointments_excluded",
   "non_meetings_excluded"]

/-- `is_work_relevant_final(category)`. -/
def is_work_relevant_final (category : String) : Bool :=
  !(excluded_categories.contains category)

/-- The closed set of labels `categorize_event_final` can return
(each literal return value, with the declined/tentative interpolation
expanded to its two possible instances). -/
def finalCategories : List String :=
  ["non_meetings_excluded",
   "declined_tentative_declined",
   "declined_tentative_tentative",
   "out_of_office",
   "personal_time_off",
   "focus_fridays_excluded",
   "work_admin_it",
   "personal_appointments_excluded",
   "business_meals_networking",
   "breaks_personal_excluded",
   "free_time_transparent_excluded",
   "customer_external",
   "internal_meetings_1on1_sync",
   "training_learning",
   "planning_strategy",
   "recruiting_hiring",
   "focus_time_blocked",
   "general_work_meetings",
   "uncategorized"]

end rerun_analysis_improved

/-! ## `scripts/stakeholder_analysis.py` -/

namespace stakeholder_analysis

/-- One entry of `event.attendees` as built by
`stakeholder_analysis.process_field` (email, name with local-part
fallback, PARTSTAT with `'UNKNOWN'` fallback). -/
structure Attendee where
  email : String
  name : String
  status : String
deriving DecidableEq, Repr

/-- The `CalendarEvent` class of `stakeholder_analysis.py`. -/
structure CalendarEvent where
  summary : String := ""
  dtstart : String := ""
  dtend : String := ""
  description : String := ""
  location : String := ""
  organizer : String := ""
  organizer_name : String := ""
  attendees : List Attendee := []
  categories : List String := []
  status : String := ""
  busy_status : String := ""
  transp : String := ""
  created : String := ""
  uid : String := ""
  is_recurring : Bool := false
  recurrence_id : String := ""
deriving DecidableEq, Repr

/-- `CalendarEvent.get_duration_hours` (same text as in
`analyze_calendar.py`). -/
def get_duration_hours (e : CalendarEvent) : ℚ := durationHoursOf e.dtstart e.dtend

/-- `is_work_relevant(event)`. -/
def is_work_relevant (event : CalendarEvent) : Bool :=
  let summary_lower := pyLower event.summary
  if event.attendees.length == 0 then false
  else if event.status == "DECLINED" || event.status == "TENTATIVE" then false
  else if event.busy_status == "OOF" then false
  else if ["out of office", "ooo", "pto", "vacation", "holiday",
      "personal", "dentist", "doctor"].any
      (fun kw => strContains summary_lower kw) then false
  else if strContains summary_lower "focus friday"
      || strContains summary_lower "focus fridays" then false
  else if (["lunch", "breakfast", "gym", "workout"].any
        (fun kw => strContains summary_lower kw))
      && !(["customer", "client", "meeting"].any
        (fun kw => strContains summary_lower kw)) then false
  else if event.transp == "TRANSPARENT" || event.busy_status == "FREE" then false
  else true

/-- Python `str.title()` for ASCII text: a letter is uppercased when
not preceded by a letter, lowercased otherwise. -/
def pyTitleAux : Bool → List Char → List Char
  | _, [] => []
  | prev, c :: rest =>
    if c.isAlpha then
      (if prev then charLowerAscii c else c.toUpper) :: pyTitleAux true rest
    else c :: pyTitleAux false rest

def pyTitle (s : String) : String := ⟨pyTitleAux false s.data⟩

/-- `extract_company_from_email(email)`. -/
def extract_company_from_email (email : String) : String :=
  if email == "" || !(strContains email "@") then "Unknown"
  else
    let domain := pyLower ⟨((email.data.dropWhile (fun c => c != '@')).drop 1).takeWhile
      (fun c => c != '@')⟩
    if strContains domain "autodesk" then "Autodesk (Internal)"
    else if ["gmail.com", "outlook.com", "hotmail.com", "yahoo.com"].contains domain then
      "Personal Email"
    else pyTitle ⟨domain.data.takeWhile (fun c => c != '.')⟩

/-- The stakeholder key of an attendee record:
`key = name if name else email`. -/
def attendeeKey (a : Attendee) : String :=
  if !(a.name == "") then a.name else a.email

/-- One attendee's turn in `analyze_stakeholders`' inner loop: skip the
viewing user (`'daniel.moreira' in email.lower()`), otherwise add the
event's duration to the keyed record's hours. -/
def attendeeStep (duration : ℚ) (acc : String → ℚ) (attendee : Attendee) : String → ℚ :=
  if strContains (pyLower attendee.email) "daniel.moreira" then acc
  else
    let key := attendeeKey attendee
    fun k => if k = key then acc k + duration else acc k

/-- One work-relevant event's turn in `analyze_stakeholders`' outer
loop (restricted to the hours accumulation). -/
def stakeholderStep (acc : String → ℚ) (event : CalendarEvent) : String → ℚ :=
  event.attendees.foldl (attendeeStep (get_duration_hours event)) acc

/-- The `stakeholder_meetings[key]['hours']` accumulation of
`analyze_stakeholders`: filter work-relevant events, then for every
attendee that does not contain the viewing user's local part
('daniel.moreira' as a lowercase substring) add the event's duration to
that attendee's keyed record. The result is the final hours map (zero
for never-encountered keys, matching the defaultdict factory). -/
def stakeholderHours (events : List CalendarEvent) : String → ℚ :=
  (events.filter (fun e => is_work_relevant e)).foldl stakeholderStep (fun _ => 0)

/-- The per-event `companies` set of `analyze_time_patterns`'s
by-company block: the distinct values of
`extract_company_from_email(attendee['email'])` (a Python `set`,
modelled as a deduplicated list; only membership and cardinality are
used). -/
def eventCompanies (event : CalendarEvent) : List String :=
  (event.attendees.map (fun a => extract_company_from_email a.email)).dedup

/-- One company's turn in the by-company loop:
`stats['by_company'][company]['hours'] += duration / len(companies)`. -/
def companyStep (duration : ℚ) (n : ℕ) (m : String → ℚ) (company : String) : String → ℚ :=
  fun c => if c = company then m c + duration / n else m c

/-- The `stats['by_company']` hours update of `analyze_time_patterns`
for a single work-relevant event: each distinct company receives
`duration / len(companies)`. -/
def byCompanyUpdate (acc : String → ℚ) (event : CalendarEvent) : String → ℚ :=
  (eventCompanies event).foldl
    (companyStep (get_duration_hours event) (eventCompanies event).length) acc

end stakeholder_analysis

/-! ## Per-block restriction of the parser (for the well-formed-block
property) -/

namespace analyze_calendar

/-- The parser's per-event state while inside one `VEVENT` block: the
event under construction plus the pending folded field. -/
structure FieldState where
  ev : CalendarEvent
  cf : Option String
  cv : String
deriving Repr

/-- The pending-field flush on the per-event state (the restriction of
`flushPending` to one open event). -/
def flushFS (fs : FieldState) : FieldState :=
  if truthyOpt fs.cf && !(fs.cv == "") then
    ⟨process_field fs.ev (fs.cf.getD "") fs.cv, none, ""⟩
  else fs

/-- `parseLine` restricted to lines that are neither `BEGIN:VEVENT` nor
`END:VEVENT`, acting on the open event: the continuation append, the
pending-field flush, and the field dispatch, exactly as in the loop
body. -/
def fieldStep (fs : FieldState) (rawLine : String) : FieldState :=
  let line := rstripNL rawLine
  if startsWithSpaceTab line && truthyOpt fs.cf then
    { fs with cv := fs.cv ++ pyStrip line }
  else
    let fs₁ := flushFS fs
    if containsColon line then
      if !(endsWithEq line) then
        ⟨process_field fs₁.ev (splitColonFst line) (splitColonSnd line), none, fs₁.cv⟩
      else
        ⟨fs₁.ev, some (splitColonFst line), splitColonSnd line⟩
    else fs₁

/-- The Event a single well-formed block's interior lines produce: fold
the loop body over them starting from a fresh `CalendarEvent()` and
flush any still-pending folded field (the flush the `END:VEVENT` line
performs before the event is appended). -/
def blockEvent (b : List String) : CalendarEvent :=
  (flushFS (b.foldl fieldStep ⟨emptyEvent, none, ""⟩)).ev

/-- Render a list of blocks as the lines of a well-formed calendar
text: each block contributes `BEGIN:VEVENT`, its interior lines, and
`END:VEVENT`. -/
def renderBlocks (blocks : List (List String)) : List String :=
  (blocks.map (fun b => "BEGIN:VEVENT" :: (b ++ ["END:VEVENT"]))).flatten

end analyze_calendar

/-! ## Concrete inputs used by witnesses and counterexamples -/

/-- An event whose `DTEND` precedes its `DTSTART` by two hours. -/
def evDurNeg : analyze_calendar.CalendarEvent :=
  { dtstart := "DTSTART:20250101T120000", dtend := "DTEND:20250101T100000" }

/-- A two-hour event carrying `TZID=` qualifiers. -/
def evDurPos : analyze_calendar.CalendarEvent :=
  { dtstart := "DTSTART;TZID=Europe/London:20250101T100000"
    dtend := "DTEND;TZID=Europe/London:20250101T120000" }

/-- An event with no timestamps at all. -/
def evDurEmpty : analyze_calendar.CalendarEvent := {}

/-- A declined meeting with one attendee (exercises the classifier). -/
def evDeclined : rerun_analysis_improved.CalendarEvent :=
  { summary := "Customer demo"
    status := "DECLINED"
    busy_status := "BUSY"
    attendees := [⟨"jane@acme.com", "Jane"⟩] }

/-- A busy event with no attendees (a reminder, not a meeting). -/
def evNoAttendees : rerun_analysis_improved.CalendarEvent :=
  { summary := "Pay invoice", busy_status := "BUSY", transp := "OPAQUE" }

/-- A work-relevant one-hour meeting whose only attendee is not the
viewing user but whose e-mail contains the substring
`daniel.moreira`. -/
def evHomonym : stakeholder_analysis.CalendarEvent :=
  { summary := "Roadmap"
    busy_status := "BUSY"
    transp := "OPAQUE"
    dtstart := "DTSTART:20250101T100000"
    dtend := "DTEND:20250101T110000"
    attendees := [⟨"daniel.moreira@gmail.com", "Dan", "ACCEPTED"⟩] }

/-- A work-relevant one-hour meeting with attendees from two distinct
organizations. -/
def evTwoOrgs : stakeholder_analysis.CalendarEvent :=
  { summary := "Roadmap"
    busy_status := "BUSY"
    transp := "OPAQUE"
    dtstart := "DTSTART:20250101T100000"
    dtend := "DTEND:20250101T110000"
    attendees := [⟨"jane@acme.com", "Jane", "ACCEPTED"⟩,
                  ⟨"bob@beta.io", "Bob", "ACCEPTED"⟩,
                  ⟨"jim@acme.com", "Jim", "ACCEPTED"⟩] }

namespace analyze_calendar

/-- A well-formed interior line of a `VEVENT` block: not an event
boundary marker, and — as in any well-formed ICS content line — if it
announces a folded value (trailing `=` on a line holding a colon) its
field name is non-empty. -/
def goodLine (l : String) : Prop :=
  rstripNL l ≠ "BEGIN:VEVENT" ∧ rstripNL l ≠ "END:VEVENT" ∧
  (endsWithEq (rstripNL l) = true → containsColon (rstripNL l) = true →
    ¬ splitColonFst (rstripNL l) = "")

instance (l : String) : Decidable (goodLine l) := by
  unfold goodLine
  infer_instance

/-- The pending-field pair is tidy: either nothing is pending, or a
field with a non-empty name and a non-empty accumulated value is. -/
def tidyPending (cf : Option String) (cv : String) : Prop :=
  (cf = none ∧ cv = "") ∨ (truthyOpt cf = true ∧ ¬ cv = "")

end analyze_calendar

/-! ## Theorems -/

/-- Helper: when both timestamp tokens resolve, the duration is the
difference in hours. -/
theorem durationHoursOf_some (s e : String) (a b : Nat)
    (ha : tokenTimestamp (tzTail s) = some a)
    (hb : tokenTimestamp (tzTail e) = some b) :
    durationHoursOf s e = ((b : ℚ) - (a : ℚ)) / 3600 := by
  unfold durationHoursOf
  rw [ha, hb]

/-- Helper: when either timestamp token is absent or unparsable, the
duration is zero. -/
theorem durationHoursOf_zero (s e : String)
    (h : tokenTimestamp (tzTail s) = none ∨ tokenTimestamp (tzTail e) = none) :
    durationHoursOf s e = 0 := by
  unfold durationHoursOf
  rcases h with h | h
  · rw [h]
  · rw [h]
    cases tokenTimestamp (tzTail s) <;> rfl

/-- Claim C1, counterexample: the duration accessor is not always
non-negative — on an event whose `DTEND` precedes its `DTSTART` it
returns a negative number of hours. -/
theorem C1_counterexample :
    analyze_calendar.get_duration_hours evDurNeg = -2 ∧
    analyze_calendar.get_duration_hours evDurNeg < 0 := by
  have h : analyze_calendar.get_duration_hours evDurNeg = -2 := by
    have h1 : tokenTimestamp (tzTail evDurNeg.dtstart) = some 63871329600 := by decide
    have h2 : tokenTimestamp (tzTail evDurNeg.dtend) = some 63871322400 := by decide
    rw [analyze_calendar.get_duration_hours, durationHoursOf_some _ _ _ _ h1 h2]
    norm_num
  exact ⟨h, by rw [h]; norm_num⟩

/-- Claim C1 (amended): the duration accessor is a total function that
never raises; whenever both the start and the end string yield a
parsable 8-digit-date + 'T' + 6-digit-time token (searched after any
`TZID=` prefix) it returns end minus start in hours — a value that may
be negative when the end precedes the start — and it returns 0.0
whenever either token is absent or unparsable. -/
theorem C1_duration_characterized (e : analyze_calendar.CalendarEvent) :
    (∀ a b : Nat, tokenTimestamp (tzTail e.dtstart) = some a →
        tokenTimestamp (tzTail e.dtend) = some b →
        analyze_calendar.get_duration_hours e = ((b : ℚ) - (a : ℚ)) / 3600) ∧
    ((tokenTimestamp (tzTail e.dtstart) = none ∨ tokenTimestamp (tzTail e.dtend) = none) →
        analyze_calendar.get_duration_hours e = 0) := by
  constructor
  · intro a b ha hb
    exact durationHoursOf_some _ _ _ _ ha hb
  · intro h
    exact durationHoursOf_zero _ _ h

/-- Claim C1, witness: the amended characterization applied to a
two-hour event with `TZID=` qualifiers and to an event with no
timestamps. -/
theorem C1_witness :
    analyze_calendar.get_duration_hours evDurPos = 2 ∧
    analyze_calendar.get_duration_hours evDurEmpty = 0 := by
  constructor
  · have h := (C1_duration_characterized evDurPos).1 63871322400 63871329600
      (by decide) (by decide)
    rw [h]; norm_num
  · exact (C1_duration_characterized evDurEmpty).2 (Or.inl (by decide))

/-- Helper: membership of an `if` in a list from membership of both
branches, the then-branch conditionally. -/
theorem mem_ite_cond {c : Prop} [Decidable c] {l : List String} {a b : String}
    (ha : c → a ∈ l) (hb : b ∈ l) : (if c then a else b) ∈ l := by
  by_cases hc : c
  · rw [if_pos hc]; exact ha hc
  · rw [if_neg hc]; exact hb

/-- Claim C5: the final classifier is total and deterministic — every
Event receives exactly one label, equal Events receive equal labels,
and the label always lies in the fixed closed category set (with
"uncategorized" as the final default branch). -/
theorem C5_classifier_total_deterministic :
    (∀ e : rerun_analysis_improved.CalendarEvent,
        rerun_analysis_improved.categorize_event_final e ∈
          rerun_analysis_improved.finalCategories) ∧
    (∀ e₁ e₂ : rerun_analysis_improved.CalendarEvent, e₁ = e₂ →
        rerun_analysis_improved.categorize_event_final e₁ =
          rerun_analysis_improved.categorize_event_final e₂) := by
  constructor
  · intro e
    unfold rerun_analysis_improved.categorize_event_final
    refine mem_ite_cond (fun _ => by decide) ?_
    refine mem_ite_cond ?_ ?_
    · intro h
      simp only [Bool.or_eq_true] at h
      rcases h with h | h
      · rw [eq_of_beq h]; decide
      · rw [eq_of_beq h]; decide
    repeat' first
      | exact (by decide)
      | refine mem_ite_cond (fun _ => by decide) ?_
      | refine fun _ => ?_
      | refine mem_ite_cond ?_ ?_
  · intro e₁ e₂ h
    rw [h]

/-- Claim C5, witness: the totality and determinism facts instantiated
on a concrete declined meeting. -/
theorem C5_witness :
    rerun_analysis_improved.categorize_event_final evDeclined ∈
      rerun_analysis_improved.finalCategories ∧
    rerun_analysis_improved.categorize_event_final evDeclined =
      rerun_analysis_improved.categorize_event_final evDeclined :=
  ⟨C5_classifier_total_deterministic.1 evDeclined,
   C5_classifier_total_deterministic.2 evDeclined evDeclined rfl⟩

/-- Claim C6: an Event with an empty attendee list always classifies to
the non-meeting/excluded category, whatever its other fields hold. -/
theorem C6_no_attendees_excluded (e : rerun_analysis_improved.CalendarEvent)
    (h : e.attendees = []) :
    rerun_analysis_improved.categorize_event_final e = "non_meetings_excluded" := by
  simp [rerun_analysis_improved.categorize_event_final,
    rerun_analysis_improved.is_actual_meeting, h]

/-- Claim C6, witness: a busy, opaque reminder with no attendees is
excluded as a non-meeting. -/
theorem C6_witness :
    rerun_analysis_improved.categorize_event_final evNoAttendees = "non_meetings_excluded" :=
  C6_no_attendees_excluded evNoAttendees rfl

/-- Claim C7: an Event whose own participation status is DECLINED never
classifies to a work-relevant category — its label always lies in the
fixed excluded set. -/
theorem C7_declined_never_work_relevant (e : rerun_analysis_improved.CalendarEvent)
    (h : e.status = "DECLINED") :
    rerun_analysis_improved.is_work_relevant_final
      (rerun_analysis_improved.categorize_event_final e) = false := by
  unfold rerun_analysis_improved.categorize_event_final
  cases hm : rerun_analysis_improved.is_actual_meeting e
  · simp only [hm, Bool.not_false, if_true]
    decide
  · rw [h]
    simp only [hm, Bool.not_true]
    simp
    decide

/-- Claim C7, witness: a concrete declined customer demo is not
work-relevant. -/
theorem C7_witness :
    rerun_analysis_improved.is_work_relevant_final
      (rerun_analysis_improved.categorize_event_final evDeclined) = false :=
  C7_declined_never_work_relevant evDeclined rfl


/-- Helper: flushing a pending field never changes the emitted-events
list. -/
theorem flushPending_events (st : analyze_calendar.ParseState) :
    (analyze_calendar.flushPending st).events = st.events := by
  unfold analyze_calendar.flushPending
  split
  · split <;> rfl
  · rfl

/-- Helper: no line other than a literal `END:VEVENT` can ever append
to the emitted-events list. -/
theorem parseLine_events_of_ne_end (st : analyze_calendar.ParseState) (l : String)
    (hl : rstripNL l ≠ "END:VEVENT") :
    (analyze_calendar.parseLine st l).events = st.events := by
  unfold analyze_calendar.parseLine analyze_calendar.dispatchLine
  dsimp only
  split
  · rfl
  · rw [show (rstripNL l == "END:VEVENT") = false from beq_eq_false_iff_ne.mpr hl]
    simp only [Bool.false_and, Bool.false_eq_true, if_false]
    split
    · exact flushPending_events st
    · split
      · split
        · split <;> exact flushPending_events st
        · exact flushPending_events st
      · exact flushPending_events st

/-- Helper: folding any run of lines none of which is `END:VEVENT`
leaves the emitted-events list untouched. -/
theorem foldl_events_of_no_end (lines : List String) (st : analyze_calendar.ParseState)
    (h : ∀ l ∈ lines, rstripNL l ≠ "END:VEVENT") :
    (lines.foldl analyze_calendar.parseLine st).events = st.events := by
  induction lines generalizing st with
  | nil => rfl
  | cons l rest ih =>
    rw [List.foldl_cons]
    rw [ih _ (fun x hx => h x (List.mem_cons_of_mem _ hx))]
    exact parseLine_events_of_ne_end st l (h l (List.mem_cons_self _ _))

/-- Claim C3: a `BEGIN:VEVENT` with no subsequent `END:VEVENT` before
end of input contributes zero Events — the parse of the whole input
equals the parse of the prefix before that `BEGIN:VEVENT`, so the
still-open Event is discarded, never appended. -/
theorem C3_unterminated_event_discarded (pre post : List String)
    (hpost : ∀ l ∈ post, rstripNL l ≠ "END:VEVENT") :
    analyze_calendar.parse_ics_file (pre ++ "BEGIN:VEVENT" :: post) =
      analyze_calendar.parse_ics_file pre := by
  unfold analyze_calendar.parse_ics_file
  rw [List.foldl_append, List.foldl_cons]
  rw [foldl_events_of_no_end post _ hpost]
  exact parseLine_events_of_ne_end _ _ (by decide)

/-- Claim C3, witness: one complete block followed by an unterminated
one parses to the same events as the complete block alone. -/
theorem C3_witness :
    analyze_calendar.parse_ics_file
      (["BEGIN:VEVENT", "SUMMARY:a", "END:VEVENT"] ++ "BEGIN:VEVENT" :: ["SUMMARY:b"]) =
      analyze_calendar.parse_ics_file ["BEGIN:VEVENT", "SUMMARY:a", "END:VEVENT"] :=
  C3_unterminated_event_discarded ["BEGIN:VEVENT", "SUMMARY:a", "END:VEVENT"]
    ["SUMMARY:b"] (by decide)

/-- Helper: two strings with equal character lists are equal. -/
theorem strEq_of_data (s t : String) (h : s.data = t.data) : s = t := by
  cases s; cases t
  exact congrArg String.mk h

/-- Helper: a nonempty string stays nonempty under right append. -/
theorem strApp_ne_empty_left (s t : String) (h : ¬ s = "") : ¬ (s ++ t = "") := by
  intro he
  apply h
  have hd : s.data ++ t.data = [] := by
    rw [← String.data_append, he]
  rcases List.append_eq_nil.mp hd with ⟨h1, _⟩
  exact strEq_of_data s "" h1

/-- Helper: ending in `=` means the last character is `=`. -/
theorem endsWithEq_getLast (l : String) (h : endsWithEq l = true) :
    l.data.getLast? = some '=' := by
  cases hg : l.data.getLast? with
  | none => simp [endsWithEq, hg] at h
  | some c =>
    simp only [endsWithEq, hg] at h
    rw [eq_of_beq h]

/-- Helper (list form): a character list holding a colon and ending in
`=` has a nonempty remainder after its first colon. -/
theorem dropColon_ne_nil (cs : List Char)
    (h1 : cs.any (fun c => c == ':') = true)
    (h2 : cs.getLast? = some '=') :
    ¬ (cs.dropWhile (fun c => c != ':')).drop 1 = [] := by
  induction cs with
  | nil => simp at h1
  | cons c rest ih =>
    rw [List.dropWhile_cons]
    by_cases hc : c = ':'
    · subst hc
      simp only [bne_self_eq_false, Bool.false_eq_true, if_false, List.drop_succ_cons,
        List.drop_zero]
      cases rest with
      | nil => simp at h2
      | cons d ds => simp
    · have hcb : (c != ':') = true := bne_iff_ne.mpr hc
      rw [hcb]
      simp only [if_true]
      have h1' : rest.any (fun x => x == ':') = true := by
        simp only [List.any_cons, Bool.or_eq_true] at h1
        rcases h1 with h | h
        · exact absurd (eq_of_beq h) hc
        · exact h
      cases rest with
      | nil => simp at h1'
      | cons d ds =>
        rw [List.getLast?_cons_cons] at h2
        exact ih h1' h2

/-- Helper: a line that contains a colon and ends in `=` has a
nonempty part after the first colon. -/
theorem splitColonSnd_ne_empty (l : String)
    (h1 : containsColon l = true) (h2 : endsWithEq l = true) :
    ¬ splitColonSnd l = "" := by
  intro he
  exact dropColon_ne_nil l.data h1 (endsWithEq_getLast l h2) (congrArg String.data he)

/-- Helper: while a (truthy) field is pending, consecutive continuation
lines only append their stripped text to `continuation_value`. -/
theorem foldl_continuation (cs : List String) (st : analyze_calendar.ParseState)
    (hcf : analyze_calendar.truthyOpt st.current_field = true)
    (hcs : ∀ c ∈ cs, startsWithSpaceTab (rstripNL c) = true) :
    cs.foldl analyze_calendar.parseLine st =
      { st with continuation_value :=
          st.continuation_value ++ strJoin (cs.map (fun c => pyStrip (rstripNL c))) } := by
  induction cs generalizing st with
  | nil =>
    cases st
    simp [strJoin, String.append_empty]
  | cons c rest ih =>
    rw [List.foldl_cons]
    have hstep : analyze_calendar.parseLine st c =
        { st with continuation_value := st.continuation_value ++ pyStrip (rstripNL c) } := by
      simp only [analyze_calendar.parseLine]
      rw [hcs c (List.mem_cons_self _ _), hcf]
      rfl
    rw [hstep]
    rw [ih { st with continuation_value := st.continuation_value ++ pyStrip (rstripNL c) }
      hcf (fun x hx => hcs x (List.mem_cons_of_mem _ hx))]
    simp only [List.map_cons, strJoin, String.append_assoc]

/-- Claim C2 (amended): a field line with a non-empty name that ends in
a trailing `=` accumulates the following continuation lines by
concatenating the text of each with leading AND trailing whitespace
stripped (Python `strip()`, not a pure left-trim), with no inserted
separator; the decoded result is `process_field` applied to the first
line's name and the concatenated value — identical to decoding that
equivalent unfolded single-line field. -/
theorem C2_folded_field_roundtrip (base : String) (cs : List String)
    (hb1 : containsColon (rstripNL base) = true)
    (hb2 : endsWithEq (rstripNL base) = true)
    (hb3 : ¬ splitColonFst (rstripNL base) = "")
    (hcs : ∀ c ∈ cs, startsWithSpaceTab (rstripNL c) = true) :
    analyze_calendar.parse_ics_file (["BEGIN:VEVENT", base] ++ cs ++ ["END:VEVENT"]) =
      [analyze_calendar.process_field analyze_calendar.emptyEvent
        (splitColonFst (rstripNL base))
        (splitColonSnd (rstripNL base) ++
          strJoin (cs.map (fun c => pyStrip (rstripNL c))))] := by
  have hne1 : (rstripNL base == "BEGIN:VEVENT") = false := by
    apply beq_eq_false_iff_ne.mpr
    intro h
    rw [h] at hb2
    exact absurd hb2 (by decide)
  have hne2 : (rstripNL base == "END:VEVENT") = false := by
    apply beq_eq_false_iff_ne.mpr
    intro h
    rw [h] at hb2
    exact absurd hb2 (by decide)
  have hcf : analyze_calendar.truthyOpt (some (splitColonFst (rstripNL base))) = true := by
    simp only [analyze_calendar.truthyOpt, Bool.not_eq_true']
    exact beq_eq_false_iff_ne.mpr hb3
  have hcvne : (splitColonSnd (rstripNL base) ++
      strJoin (cs.map (fun c => pyStrip (rstripNL c))) == "") = false :=
    beq_eq_false_iff_ne.mpr
      (strApp_ne_empty_left _ _ (splitColonSnd_ne_empty _ hb1 hb2))
  unfold analyze_calendar.parse_ics_file
  rw [show (["BEGIN:VEVENT", base] ++ cs ++ ["END:VEVENT"]) =
      "BEGIN:VEVENT" :: base :: (cs ++ ["END:VEVENT"]) from by simp]
  rw [List.foldl_cons, List.foldl_cons]
  rw [show analyze_calendar.parseLine analyze_calendar.initState "BEGIN:VEVENT" =
      ⟨[], some analyze_calendar.emptyEvent, none, ""⟩ from rfl]
  have h1 : analyze_calendar.parseLine ⟨[], some analyze_calendar.emptyEvent, none, ""⟩ base =
      ⟨[], some analyze_calendar.emptyEvent, some (splitColonFst (rstripNL base)),
        splitColonSnd (rstripNL base)⟩ := by
    simp only [analyze_calendar.parseLine, analyze_calendar.truthyOpt, Bool.and_false,
      Bool.false_eq_true, if_false]
    simp only [analyze_calendar.flushPending, analyze_calendar.truthyOpt, Bool.false_and,
      Bool.false_eq_true, if_false]
    simp only [analyze_calendar.dispatchLine, hne1, hne2, Bool.false_and, Bool.false_eq_true,
      if_false, hb1, hb2, Bool.not_true, if_true]
  rw [h1]
  rw [List.foldl_append]
  rw [foldl_continuation cs _ hcf hcs]
  simp only [List.foldl_cons, List.foldl_nil]
  have h2 : analyze_calendar.parseLine
      ⟨[], some analyze_calendar.emptyEvent, some (splitColonFst (rstripNL base)),
        splitColonSnd (rstripNL base) ++ strJoin (cs.map (fun c => pyStrip (rstripNL c)))⟩
      "END:VEVENT" =
      ⟨[analyze_calendar.process_field analyze_calendar.emptyEvent
          (splitColonFst (rstripNL base))
          (splitColonSnd (rstripNL base) ++ strJoin (cs.map (fun c => pyStrip (rstripNL c))))],
        none, none, ""⟩ := by
    simp only [analyze_calendar.parseLine]
    rw [show startsWithSpaceTab (rstripNL "END:VEVENT") = false from rfl]
    simp only [Bool.false_and, Bool.false_eq_true, if_false]
    simp only [analyze_calendar.flushPending, hcf, hcvne, Bool.not_false, Bool.true_and, if_true]
    simp only [analyze_calendar.dispatchLine]
    rfl
  rw [h2]

/-- Claim C2, counterexample: continuation accumulation is NOT the
left-trimmed text of each continuation line — a continuation line with
trailing whitespace loses it. Folding `LOCATION:abc=` with the
continuation line `" def "` decodes to `"abc=def"`, while the
single-line field built from the left-trimmed continuation text
(`"LOCATION:abc=def "`) decodes to `"abc=def "`. -/
theorem C2_counterexample :
    (analyze_calendar.parse_ics_file
        ["BEGIN:VEVENT", "LOCATION:abc=", " def ", "END:VEVENT"]).map
        (fun e => e.location) = ["abc=def"] ∧
    (analyze_calendar.parse_ics_file
        ["BEGIN:VEVENT", "LOCATION:abc=" ++ pyLStrip " def ", "END:VEVENT"]).map
        (fun e => e.location) = ["abc=def "] ∧
    ("abc=def" : String) ≠ "abc=def " := by
  refine ⟨by decide, by decide, by decide⟩

/-- Claim C2, witness: the amended round-trip property applied to a
concrete folded `LOCATION` field with two continuation lines. -/
theorem C2_witness :
    analyze_calendar.parse_ics_file
      (["BEGIN:VEVENT", "LOCATION:abc="] ++ [" def", "\tgh "] ++ ["END:VEVENT"]) =
      [analyze_calendar.process_field analyze_calendar.emptyEvent
        (splitColonFst (rstripNL "LOCATION:abc="))
        (splitColonSnd (rstripNL "LOCATION:abc=") ++
          strJoin ([" def", "\tgh "].map (fun c => pyStrip (rstripNL c))))] :=
  C2_folded_field_roundtrip "LOCATION:abc=" [" def", "\tgh "]
    (by decide) (by decide) (by decide) (by decide)

/-- Helper: flushing the pending field on a state with an open event is
exactly the per-event flush. -/
theorem flushPending_eq_flushFS (E : List analyze_calendar.CalendarEvent)
    (ev : analyze_calendar.CalendarEvent) (cf : Option String) (cv : String) :
    analyze_calendar.flushPending ⟨E, some ev, cf, cv⟩ =
      ⟨E, some (analyze_calendar.flushFS ⟨ev, cf, cv⟩).ev,
        (analyze_calendar.flushFS ⟨ev, cf, cv⟩).cf,
        (analyze_calendar.flushFS ⟨ev, cf, cv⟩).cv⟩ := by
  unfold analyze_calendar.flushPending analyze_calendar.flushFS
  split <;> rfl

/-- Helper: on a line that is not an event boundary, the loop body with
an open event is exactly `fieldStep` on the per-event state. -/
theorem parseLine_eq_fieldStep (l : String)
    (h1 : rstripNL l ≠ "BEGIN:VEVENT") (h2 : rstripNL l ≠ "END:VEVENT")
    (E : List analyze_calendar.CalendarEvent) (ev : analyze_calendar.CalendarEvent)
    (cf : Option String) (cv : String) :
    analyze_calendar.parseLine ⟨E, some ev, cf, cv⟩ l =
      ⟨E, some (analyze_calendar.fieldStep ⟨ev, cf, cv⟩ l).ev,
        (analyze_calendar.fieldStep ⟨ev, cf, cv⟩ l).cf,
        (analyze_calendar.fieldStep ⟨ev, cf, cv⟩ l).cv⟩ := by
  have hb1 : (rstripNL l == "BEGIN:VEVENT") = false := beq_eq_false_iff_ne.mpr h1
  have hb2 : (rstripNL l == "END:VEVENT") = false := beq_eq_false_iff_ne.mpr h2
  simp only [analyze_calendar.parseLine, analyze_calendar.fieldStep]
  split
  · rfl
  · rw [flushPending_eq_flushFS]
    simp only [analyze_calendar.dispatchLine, hb1, hb2, Bool.false_and, Bool.false_eq_true,
      if_false]
    split
    · split
      · rfl
      · rfl
    · rfl

/-- Helper: the fold of the loop body over interior lines of a block is
the fold of `fieldStep` on the per-event state. -/
theorem foldl_parseLine_eq_fieldStep (b : List String)
    (hb : ∀ l ∈ b, rstripNL l ≠ "BEGIN:VEVENT" ∧ rstripNL l ≠ "END:VEVENT")
    (E : List analyze_calendar.CalendarEvent) (ev : analyze_calendar.CalendarEvent)
    (cf : Option String) (cv : String) :
    b.foldl analyze_calendar.parseLine ⟨E, some ev, cf, cv⟩ =
      ⟨E, some (b.foldl analyze_calendar.fieldStep ⟨ev, cf, cv⟩).ev,
        (b.foldl analyze_calendar.fieldStep ⟨ev, cf, cv⟩).cf,
        (b.foldl analyze_calendar.fieldStep ⟨ev, cf, cv⟩).cv⟩ := by
  induction b generalizing ev cf cv with
  | nil => rfl
  | cons l rest ih =>
    rw [List.foldl_cons, List.foldl_cons]
    rw [parseLine_eq_fieldStep l (hb l (List.mem_cons_self _ _)).1
      (hb l (List.mem_cons_self _ _)).2 E ev cf cv]
    exact ih (fun x hx => hb x (List.mem_cons_of_mem _ hx)) _ _ _

/-- Helper: flushing a tidy pending pair always clears it. -/
theorem flushFS_tidy (fs : analyze_calendar.FieldState)
    (h : analyze_calendar.tidyPending fs.cf fs.cv) :
    (analyze_calendar.flushFS fs).cf = none ∧ (analyze_calendar.flushFS fs).cv = "" := by
  unfold analyze_calendar.flushFS
  rcases h with ⟨h1, h2⟩ | ⟨h1, h2⟩
  · rw [if_neg]
    · exact ⟨h1, h2⟩
    · rw [h1]
      simp [analyze_calendar.truthyOpt]
  · rw [if_pos]
    · exact ⟨rfl, rfl⟩
    · rw [h1]
      simp only [Bool.true_and, Bool.not_eq_true', beq_eq_false_iff_ne]
      exact h2

/-- Helper: the per-event step keeps the pending pair tidy on
well-formed lines. -/
theorem fieldStep_tidy (l : String)
    (hg : endsWithEq (rstripNL l) = true → containsColon (rstripNL l) = true →
      ¬ splitColonFst (rstripNL l) = "")
    (fs : analyze_calendar.FieldState)
    (h : analyze_calendar.tidyPending fs.cf fs.cv) :
    analyze_calendar.tidyPending (analyze_calendar.fieldStep fs l).cf
      (analyze_calendar.fieldStep fs l).cv := by
  simp only [analyze_calendar.fieldStep]
  split
  · rename_i hc
    rcases h with ⟨h1, h2⟩ | ⟨h1, h2⟩
    · rw [h1] at hc
      simp [analyze_calendar.truthyOpt] at hc
    · right
      refine ⟨h1, ?_⟩
      exact strApp_ne_empty_left _ _ h2
  · have hflush := flushFS_tidy fs h
    split
    · rename_i hcol
      split
      · left
        exact ⟨rfl, hflush.2⟩
      · rename_i hneq
        have he : endsWithEq (rstripNL l) = true := by
          revert hneq
          cases endsWithEq (rstripNL l) <;> simp
        right
        constructor
        · simp only [analyze_calendar.truthyOpt, Bool.not_eq_true', beq_eq_false_iff_ne]
          exact hg he hcol
        · exact splitColonSnd_ne_empty _ hcol he
    · left
      exact ⟨hflush.1, hflush.2⟩

/-- Helper: the per-event fold keeps the pending pair tidy on
well-formed lines. -/
theorem foldl_fieldStep_tidy (b : List String)
    (hb : ∀ l ∈ b, endsWithEq (rstripNL l) = true → containsColon (rstripNL l) = true →
      ¬ splitColonFst (rstripNL l) = "")
    (fs : analyze_calendar.FieldState)
    (h : analyze_calendar.tidyPending fs.cf fs.cv) :
    analyze_calendar.tidyPending (b.foldl analyze_calendar.fieldStep fs).cf
      (b.foldl analyze_calendar.fieldStep fs).cv := by
  induction b generalizing fs with
  | nil => exact h
  | cons l rest ih =>
    rw [List.foldl_cons]
    exact ih (fun x hx => hb x (List.mem_cons_of_mem _ hx))
      _ (fieldStep_tidy l (hb l (List.mem_cons_self _ _)) fs h)

/-- Helper: `BEGIN:VEVENT` on a clean state just opens a fresh event. -/
theorem parseLine_begin (E : List analyze_calendar.CalendarEvent) :
    analyze_calendar.parseLine ⟨E, none, none, ""⟩ "BEGIN:VEVENT" =
      ⟨E, some analyze_calendar.emptyEvent, none, ""⟩ := rfl

/-- Helper: `END:VEVENT` on an open event with a tidy pending pair
flushes the pending field into the event and appends it. -/
theorem parseLine_end (E : List analyze_calendar.CalendarEvent)
    (ev : analyze_calendar.CalendarEvent) (cf : Option String) (cv : String)
    (h : analyze_calendar.tidyPending cf cv) :
    analyze_calendar.parseLine ⟨E, some ev, cf, cv⟩ "END:VEVENT" =
      ⟨E ++ [(analyze_calendar.flushFS ⟨ev, cf, cv⟩).ev], none, none, ""⟩ := by
  have hf := flushFS_tidy ⟨ev, cf, cv⟩ h
  simp only [analyze_calendar.parseLine]
  rw [show startsWithSpaceTab (rstripNL "END:VEVENT") = false from rfl]
  simp only [Bool.false_and, Bool.false_eq_true, if_false]
  rw [flushPending_eq_flushFS]
  simp only [analyze_calendar.dispatchLine]
  rw [show (rstripNL "END:VEVENT" == "BEGIN:VEVENT") = false from rfl]
  rw [show (rstripNL "END:VEVENT" == "END:VEVENT") = true from rfl]
  simp only [Bool.false_eq_true, if_false, Option.isSome_some, Bool.and_self, if_true,
    Option.getD_some]
  rw [hf.1, hf.2]

/-- Helper: one whole well-formed block appends exactly its
`blockEvent` and returns to a clean state. -/
theorem foldl_one_block (b : List String) (hb : ∀ l ∈ b, analyze_calendar.goodLine l)
    (E : List analyze_calendar.CalendarEvent) :
    ("BEGIN:VEVENT" :: (b ++ ["END:VEVENT"])).foldl analyze_calendar.parseLine
      ⟨E, none, none, ""⟩ =
      ⟨E ++ [analyze_calendar.blockEvent b], none, none, ""⟩ := by
  rw [List.foldl_cons, parseLine_begin, List.foldl_append]
  rw [foldl_parseLine_eq_fieldStep b (fun l hl => ⟨(hb l hl).1, (hb l hl).2.1⟩)
    E analyze_calendar.emptyEvent none ""]
  simp only [List.foldl_cons, List.foldl_nil]
  rw [parseLine_end _ _ _ _ (foldl_fieldStep_tidy b (fun l hl => (hb l hl).2.2)
    ⟨analyze_calendar.emptyEvent, none, ""⟩ (Or.inl ⟨rfl, rfl⟩))]
  rfl

/-- Claim C4: for input consisting of well-formed
`BEGIN:VEVENT … END:VEVENT` blocks the parser emits exactly one Event
per block, in source order; each block's Event is the fold of the Field
Decoder over the block's interior lines (`blockEvent`), so every
dispatched field's effect is reflected on the emitted Event. The parser
is a total function of its input (never a fatal error). -/
theorem C4_wellformed_blocks (blocks : List (List String))
    (hb : ∀ b ∈ blocks, ∀ l ∈ b, analyze_calendar.goodLine l) :
    analyze_calendar.parse_ics_file (analyze_calendar.renderBlocks blocks) =
      blocks.map analyze_calendar.blockEvent ∧
    (analyze_calendar.parse_ics_file (analyze_calendar.renderBlocks blocks)).length =
      blocks.length := by
  have main : ∀ (bs : List (List String)), (∀ b ∈ bs, ∀ l ∈ b, analyze_calendar.goodLine l) →
      ∀ E, (analyze_calendar.renderBlocks bs).foldl analyze_calendar.parseLine
        ⟨E, none, none, ""⟩ = ⟨E ++ bs.map analyze_calendar.blockEvent, none, none, ""⟩ := by
    intro bs
    induction bs with
    | nil =>
      intro _ E
      simp [analyze_calendar.renderBlocks]
    | cons b rest ih =>
      intro h E
      have hrender : analyze_calendar.renderBlocks (b :: rest) =
          ("BEGIN:VEVENT" :: (b ++ ["END:VEVENT"])) ++ analyze_calendar.renderBlocks rest := by
        simp [analyze_calendar.renderBlocks]
      rw [hrender, List.foldl_append]
      rw [foldl_one_block b (h b (List.mem_cons_self _ _)) E]
      rw [ih (fun x hx => h x (List.mem_cons_of_mem _ hx)) (E ++ [analyze_calendar.blockEvent b])]
      simp
  have hparse : analyze_calendar.parse_ics_file (analyze_calendar.renderBlocks blocks) =
      blocks.map analyze_calendar.blockEvent := by
    unfold analyze_calendar.parse_ics_file
    rw [show analyze_calendar.initState = ⟨[], none, none, ""⟩ from rfl]
    rw [main blocks hb []]
    simp
  exact ⟨hparse, by rw [hparse, List.length_map]⟩

/-- Claim C4, witness: two concrete well-formed blocks parse to exactly
their two block events. -/
theorem C4_witness :
    analyze_calendar.parse_ics_file
      (analyze_calendar.renderBlocks
        [["SUMMARY:Hello", "X-MICROSOFT-CDO-BUSYSTATUS:BUSY"], ["LOCATION:abc=", " def"]]) =
      [["SUMMARY:Hello", "X-MICROSOFT-CDO-BUSYSTATUS:BUSY"], ["LOCATION:abc=", " def"]].map
        analyze_calendar.blockEvent ∧
    (analyze_calendar.parse_ics_file
      (analyze_calendar.renderBlocks
        [["SUMMARY:Hello", "X-MICROSOFT-CDO-BUSYSTATUS:BUSY"], ["LOCATION:abc=", " def"]])).length
      = 2 :=
  C4_wellformed_blocks
    [["SUMMARY:Hello", "X-MICROSOFT-CDO-BUSYSTATUS:BUSY"], ["LOCATION:abc=", " def"]]
    (by decide)

/-- Helper: the per-event accumulation of `analyze_calendar` from any
accumulator — the per-label list extends by exactly the events with
that label and the hours by exactly the sum of their durations. -/
theorem analyzeStep_foldl (events : List analyze_calendar.CalendarEvent) (cat : String)
    (acc : (String → List analyze_calendar.CalendarEvent) × (String → ℚ)) :
    (events.foldl analyze_calendar.analyzeStep acc).1 cat =
      acc.1 cat ++ events.filter (fun e => analyze_calendar.categorize_event e == cat) ∧
    (events.foldl analyze_calendar.analyzeStep acc).2 cat =
      acc.2 cat + ((events.filter (fun e => analyze_calendar.categorize_event e == cat)).map
        (fun e => analyze_calendar.get_duration_hours e)).sum := by
  induction events generalizing acc with
  | nil => simp
  | cons e rest ih =>
    rw [List.foldl_cons, List.filter_cons]
    by_cases hc : analyze_calendar.categorize_event e = cat
    · rw [if_pos (by simp [hc])]
      obtain ⟨ih1, ih2⟩ := ih (analyze_calendar.analyzeStep acc e)
      refine ⟨?_, ?_⟩
      · rw [ih1]
        simp only [analyze_calendar.analyzeStep, hc, if_pos rfl]
        simp [hc]
      · rw [ih2]
        simp only [analyze_calendar.analyzeStep, hc, if_pos rfl]
        simp [hc]
        ring
    · rw [if_neg (by simp [hc])]
      obtain ⟨ih1, ih2⟩ := ih (analyze_calendar.analyzeStep acc e)
      refine ⟨?_, ?_⟩
      · rw [ih1]
        simp only [analyze_calendar.analyzeStep]
        rw [if_neg (fun hh => hc hh.symm)]
      · rw [ih2]
        simp only [analyze_calendar.analyzeStep]
        rw [if_neg (fun hh => hc hh.symm)]

/-- Claim C8: for every classified event sequence and category label,
the aggregator's per-category list contains exactly the events the
classifier assigns that label (so its `count` is their number), and the
accumulated per-category hours equal the sum of the member events'
durations (malformed durations contributing 0.0 through the duration
accessor). -/
theorem C8_per_category_stats (events : List analyze_calendar.CalendarEvent) (cat : String) :
    (analyze_calendar.analyze_calendar events).1 cat =
      events.filter (fun e => analyze_calendar.categorize_event e == cat) ∧
    ((analyze_calendar.analyze_calendar events).1 cat).length =
      (events.filter (fun e => analyze_calendar.categorize_event e == cat)).length ∧
    (analyze_calendar.analyze_calendar events).2 cat =
      ((events.filter (fun e => analyze_calendar.categorize_event e == cat)).map
        (fun e => analyze_calendar.get_duration_hours e)).sum := by
  obtain ⟨h1, h2⟩ := analyzeStep_foldl events cat (fun _ => [], fun _ => 0)
  unfold analyze_calendar.analyze_calendar
  rw [h1, h2]
  simp

/-- Helper: folding one event's attendees adds the duration once per
non-skipped attendee entry whose stakeholder key is `k`. -/
theorem attendeeStep_foldl (as : List stakeholder_analysis.Attendee) (d : ℚ)
    (acc : String → ℚ) (k : String) :
    (as.foldl (stakeholder_analysis.attendeeStep d) acc) k =
      acc k + ((as.filter (fun a => !(strContains (pyLower a.email) "daniel.moreira")
        && (stakeholder_analysis.attendeeKey a == k))).length : ℚ) * d := by
  induction as generalizing acc with
  | nil => simp
  | cons a rest ih =>
    rw [List.foldl_cons, List.filter_cons]
    by_cases hskip : strContains (pyLower a.email) "daniel.moreira" = true
    · rw [if_neg (by simp [hskip])]
      rw [show stakeholder_analysis.attendeeStep d acc a = acc from by
        simp [stakeholder_analysis.attendeeStep, hskip]]
      exact ih acc
    · by_cases hk : stakeholder_analysis.attendeeKey a = k
      · rw [if_pos (by simp [hskip, hk])]
        rw [ih (stakeholder_analysis.attendeeStep d acc a)]
        rw [show stakeholder_analysis.attendeeStep d acc a k = acc k + d from by
          simp [stakeholder_analysis.attendeeStep, hskip, hk]]
        simp only [List.length_cons]
        push_cast
        ring
      · rw [if_neg (by simp [hskip, hk])]
        rw [ih (stakeholder_analysis.attendeeStep d acc a)]
        rw [show stakeholder_analysis.attendeeStep d acc a k = acc k from by
          simp only [stakeholder_analysis.attendeeStep, hskip, Bool.false_eq_true, if_false]
          rw [if_neg (fun hh => hk hh.symm)]]

/-- Helper: folding the work-relevant events accumulates, for each
event, its duration times the number of its contributing attendee
entries with key `k`. -/
theorem stakeholderStep_foldl (es : List stakeholder_analysis.CalendarEvent)
    (acc : String → ℚ) (k : String) :
    (es.foldl stakeholder_analysis.stakeholderStep acc) k =
      acc k + (es.map (fun e =>
        ((e.attendees.filter (fun a => !(strContains (pyLower a.email) "daniel.moreira")
          && (stakeholder_analysis.attendeeKey a == k))).length : ℚ)
        * stakeholder_analysis.get_duration_hours e)).sum := by
  induction es generalizing acc with
  | nil => simp
  | cons e rest ih =>
    rw [List.foldl_cons, List.map_cons, List.sum_cons]
    rw [ih (stakeholder_analysis.stakeholderStep acc e)]
    rw [show stakeholder_analysis.stakeholderStep acc e k =
        acc k + ((e.attendees.filter (fun a => !(strContains (pyLower a.email) "daniel.moreira")
          && (stakeholder_analysis.attendeeKey a == k))).length : ℚ)
          * stakeholder_analysis.get_duration_hours e from
      attendeeStep_foldl e.attendees (stakeholder_analysis.get_duration_hours e) acc k]
    ring

/-- Claim C9 (amended): a stakeholder's accumulated hours equal the sum
over all work-relevant events of the event's duration multiplied by the
number of that person's attendee entries on the event (duplicate
entries therefore count multiply), where an attendee entry contributes
only if its lowercased e-mail does NOT contain the substring
`daniel.moreira` — the viewing user's local part — a skip that is wider
than exact equality with the viewing user's address. -/
theorem C9_stakeholder_hours (events : List stakeholder_analysis.CalendarEvent) (k : String) :
    stakeholder_analysis.stakeholderHours events k =
      ((events.filter (fun e => stakeholder_analysis.is_work_relevant e)).map (fun e =>
        ((e.attendees.filter (fun a => !(strContains (pyLower a.email) "daniel.moreira")
          && (stakeholder_analysis.attendeeKey a == k))).length : ℚ)
        * stakeholder_analysis.get_duration_hours e)).sum := by
  unfold stakeholder_analysis.stakeholderHours
  rw [stakeholderStep_foldl]
  simp

/-- Claim C9, counterexample: `evHomonym` is a work-relevant one-hour
event whose single attendee "Dan" has the e-mail
`daniel.moreira@gmail.com` — a different address than the viewing
user's `daniel.moreira@autodesk.com` — yet "Dan" accumulates zero
hours, because the skip test is a substring test, so the claim's
"hours equal the sum over events where the person appears as an
attendee (only the viewing user's e-mail is skipped)" fails. -/
theorem C9_counterexample :
    stakeholder_analysis.is_work_relevant evHomonym = true ∧
    evHomonym.attendees = [⟨"daniel.moreira@gmail.com", "Dan", "ACCEPTED"⟩] ∧
    ("daniel.moreira@gmail.com" : String) ≠ "daniel.moreira@autodesk.com" ∧
    stakeholder_analysis.get_duration_hours evHomonym = 1 ∧
    stakeholder_analysis.stakeholderHours [evHomonym] "Dan" = 0 := by
  refine ⟨by decide, by decide, by decide, ?_, by decide⟩
  have h1 : tokenTimestamp (tzTail evHomonym.dtstart) = some 63871322400 := by decide
  have h2 : tokenTimestamp (tzTail evHomonym.dtend) = some 63871326000 := by decide
  rw [stakeholder_analysis.get_duration_hours, durationHoursOf_some _ _ _ _ h1 h2]
  norm_num

/-- Helper: the by-company fold leaves keys outside the list
untouched. -/
theorem companyStep_foldl_not_mem (l : List String) (d : ℚ) (n : ℕ)
    (acc : String → ℚ) (c : String) (hc : c ∉ l) :
    (l.foldl (stakeholder_analysis.companyStep d n) acc) c = acc c := by
  induction l generalizing acc with
  | nil => rfl
  | cons x rest ih =>
    rw [List.foldl_cons]
    rw [ih _ (fun hm => hc (List.mem_cons_of_mem _ hm))]
    simp only [stakeholder_analysis.companyStep]
    rw [if_neg]
    intro he
    exact hc (by rw [he]; exact List.mem_cons_self _ _)

/-- Helper: over a duplicate-free company list every member key
receives exactly one `duration / n` increment. -/
theorem companyStep_foldl_mem (l : List String) (hl : l.Nodup) (d : ℚ) (n : ℕ)
    (acc : String → ℚ) (c : String) (hc : c ∈ l) :
    (l.foldl (stakeholder_analysis.companyStep d n) acc) c = acc c + d / n := by
  induction l generalizing acc with
  | nil => exact absurd hc (List.not_mem_nil _)
  | cons x rest ih =>
    rw [List.foldl_cons]
    rcases List.mem_cons.mp hc with h | h
    · subst h
      rw [companyStep_foldl_not_mem rest d n _ c (List.Nodup.not_mem hl)]
      simp [stakeholder_analysis.companyStep]
    · rw [ih (List.Nodup.of_cons hl) _ h]
      simp only [stakeholder_analysis.companyStep]
      rw [if_neg]
      intro he
      rw [he] at h
      exact (List.Nodup.not_mem hl) h

/-- Claim C10: a work-relevant event always has at least one attendee,
hence its distinct-organization list is non-empty and
`duration / len(companies)` never divides by zero; each distinct
organization receives exactly `duration / len(companies)` and the
per-organization contributions sum back to the event's duration. -/
theorem C10_by_company_split_safe (e : stakeholder_analysis.CalendarEvent)
    (h : stakeholder_analysis.is_work_relevant e = true) :
    e.attendees ≠ [] ∧
    stakeholder_analysis.eventCompanies e ≠ [] ∧
    (∀ (acc : String → ℚ), ∀ c ∈ stakeholder_analysis.eventCompanies e,
        stakeholder_analysis.byCompanyUpdate acc e c =
          acc c + stakeholder_analysis.get_duration_hours e /
            (stakeholder_analysis.eventCompanies e).length) ∧
    ((stakeholder_analysis.eventCompanies e).map
        (fun _ => stakeholder_analysis.get_duration_hours e /
          ((stakeholder_analysis.eventCompanies e).length : ℚ))).sum =
      stakeholder_analysis.get_duration_hours e := by
  have hatt : e.attendees ≠ [] := by
    intro hnil
    unfold stakeholder_analysis.is_work_relevant at h
    rw [hnil] at h
    simp at h
  have hcomp : stakeholder_analysis.eventCompanies e ≠ [] := by
    unfold stakeholder_analysis.eventCompanies
    rw [ne_eq, List.dedup_eq_nil, List.map_eq_nil_iff]
    exact hatt
  have hn : ((stakeholder_analysis.eventCompanies e).length : ℚ) ≠ 0 := by
    rw [ne_eq, Nat.cast_eq_zero, List.length_eq_zero]
    exact hcomp
  refine ⟨hatt, hcomp, ?_, ?_⟩
  · intro acc c hc
    unfold stakeholder_analysis.byCompanyUpdate
    unfold stakeholder_analysis.eventCompanies at hc ⊢
    rw [companyStep_foldl_mem _ (List.nodup_dedup _) _ _ acc c hc]
  · rw [List.map_const']
    rw [List.sum_replicate]
    rw [nsmul_eq_mul]
    rw [mul_div_cancel₀ _ hn]

/-- Claim C10, witness: the split property on a concrete work-relevant
meeting with attendees from two distinct organizations. -/
theorem C10_witness :
    stakeholder_analysis.is_work_relevant evTwoOrgs = true ∧
    stakeholder_analysis.eventCompanies evTwoOrgs ≠ [] ∧
    ((stakeholder_analysis.eventCompanies evTwoOrgs).map
        (fun _ => stakeholder_analysis.get_duration_hours evTwoOrgs /
          ((stakeholder_analysis.eventCompanies evTwoOrgs).length : ℚ))).sum =
      stakeholder_analysis.get_duration_hours evTwoOrgs :=
  ⟨by decide, (C10_by_company_split_safe evTwoOrgs (by decide)).2.1,
   (C10_by_company_split_safe evTwoOrgs (by decide)).2.2.2⟩
